import Mathlib

/-!
# HostCamera: a verification development

A shallow embedding of `Code/HostCamera.cpp`.

The program talks to three outside parties: the OpenCV capture (`cv::VideoCapture`),
the JPEG encoder (`cv::imencode`) and the socket layer (`socket`, `connect`, `send`,
`close`).  Their answers are not decided by the program, so they are supplied by an
environment `Env`: for each kind of call, the answer given to its k-th occurrence.
Every call the program makes is appended to a trace of `Event`s, which is what the
theorems speak about.

Machine integers are `Nat`/`Int`; the one narrowing in the source
(`uint32_t length = buffer.size()`) is written `% 2 ^ 32`.
-/

namespace HostCamera

/-! ## Data model -/

/-- Byte order of the host: `send(client_socket, &length, sizeof(length), 0)` hands over the
in-memory bytes of `length`, so the order on the wire is the order of the machine. -/
inductive ByteOrder where
  | little
  | big
  deriving DecidableEq, Repr

/-- The four in-memory bytes of a `uint32_t` holding `v` (taken modulo `2 ^ 32` by the
four digit extractions). -/
def u32_bytes (bo : ByteOrder) (v : Nat) : List Nat :=
  match bo with
  | .little => [v % 256, v / 256 % 256, v / 65536 % 256, v / 16777216 % 256]
  | .big => [v / 16777216 % 256, v / 65536 % 256, v / 256 % 256, v % 256]

/-- Reading a `uint32_t` back from its four bytes, as a receiver of the same byte order
would. Anything that is not four bytes long reads as `0`. -/
def u32_value (bo : ByteOrder) (bs : List Nat) : Nat :=
  match bo, bs with
  | .little, [b0, b1, b2, b3] => b0 + 256 * b1 + 65536 * b2 + 16777216 * b3
  | .big, [b3, b2, b1, b0] => b0 + 256 * b1 + 65536 * b2 + 16777216 * b3
  | _, _ => 0

/-- A `cv::Mat` as far as the program looks at it: `frame.empty()` and what
`cv::imencode(".jpg", frame, buffer)` leaves in `buffer` (`none`: the encoder throws). -/
structure Mat where
  empty : Bool
  jpeg : Option (List Nat)
  deriving DecidableEq, Repr

/-- What `cap >> frame` does: it delivers a matrix (possibly an empty one) or throws. -/
inductive ReadOutcome where
  | frame (m : Mat)
  | throws
  deriving DecidableEq, Repr

/-- One call made by the program to the outside world, with the answer it got. -/
inductive Event where
  /-- the `cv::VideoCapture` constructor or `cap.open(rtsp_address)`, with the value
  of the `cap.isOpened()` that follows it -/
  | capOpen (opened : Bool)
  /-- a call of `cap.release()` -/
  | capRelease
  /-- a `cap >> frame` -/
  | capRead (r : ReadOutcome)
  /-- a `socket(AF_INET, SOCK_STREAM, 0)` and its return value -/
  | socket (ret : Int)
  /-- a `connect(fd, ...)` and its return value -/
  | connect (fd : Int) (ret : Int)
  /-- a `send(fd, data, len, 0)`: the bytes handed over and the return value -/
  | send (fd : Int) (data : List Nat) (ret : Int)
  /-- a `close(fd)` -/
  | close (fd : Int)
  /-- a `this_thread::sleep_for(chrono::seconds(secs))` -/
  | sleep (secs : Nat)
  deriving DecidableEq, Repr

/-- The environment: the answer to the k-th call of each kind.
`socketRet k` and `connectRet k` are the answers inside the k-th call of `create_socket`. -/
structure Env where
  byteOrder : ByteOrder
  isOpened : Nat → Bool
  socketRet : Nat → Int
  connectRet : Nat → Int
  readRet : Nat → ReadOutcome
  sendRet : Nat → Int

/-- The state outside the control flow: how many calls of each kind have been made, and
the trace of all calls so far. -/
structure World where
  opens : Nat
  conns : Nat
  reads : Nat
  sends : Nat
  trace : List Event
  deriving DecidableEq, Repr

/-- Nothing has happened yet. -/
def World.init : World := ⟨0, 0, 0, 0, []⟩

/-! ## The outside calls -/

/-- Opening the capture (constructor or `cap.open`) followed by `cap.isOpened()`. -/
def cap_open (env : Env) (w : World) : Bool × World :=
  let opened := env.isOpened w.opens
  (opened, { w with opens := w.opens + 1, trace := w.trace ++ [Event.capOpen opened] })

/-- The call `cap.release()`. -/
def cap_release (w : World) : World :=
  { w with trace := w.trace ++ [Event.capRelease] }

/-- The statement `cap >> frame`. -/
def cap_read (env : Env) (w : World) : ReadOutcome × World :=
  let r := env.readRet w.reads
  (r, { w with reads := w.reads + 1, trace := w.trace ++ [Event.capRead r] })

/-- The call `this_thread::sleep_for(chrono::seconds(secs))`. -/
def sleep_for (secs : Nat) (w : World) : World :=
  { w with trace := w.trace ++ [Event.sleep secs] }

/-- The call `send(fd, data, len, 0)` with `len` the length of `data`, as a call that comes
back with a return value (`-1` or a byte count); a signal that stops the whole process
during the call is not part of this model. -/
def sys_send (env : Env) (w : World) (fd : Int) (data : List Nat) : Int × World :=
  let r := env.sendRet w.sends
  (r, { w with sends := w.sends + 1, trace := w.trace ++ [Event.send fd data r] })

/-- The call `close(fd)`. -/
def sys_close (fd : Int) (w : World) : World :=
  { w with trace := w.trace ++ [Event.close fd] }

/-! ## `create_socket` and `send_frame` -/

/-- Source `create_socket` (lines 52-70): `socket()`, then `connect()`; `-1` when either
fails, the descriptor otherwise. The failed `connect` path returns without a `close`. -/
def create_socket (env : Env) (w : World) : Int × World :=
  let client_socket := env.socketRet w.conns
  let w1 := { w with conns := w.conns + 1, trace := w.trace ++ [Event.socket client_socket] }
  if client_socket < 0 then (-1, w1)
  else
    let r := env.connectRet w.conns
    let w2 := { w1 with trace := w1.trace ++ [Event.connect client_socket r] }
    if r < 0 then (-1, w2) else (client_socket, w2)

/-- Source `send_frame` (lines 73-88). `none` stands for an exception leaving the function
(thrown by `cv::imencode`), `some b` for `return b`. -/
def send_frame (env : Env) (w : World) (client_socket : Int) (frame : Mat) :
    Option Bool × World :=
  match frame.jpeg with
  | none => (none, w)
  | some buffer =>
    let length := buffer.length % 2 ^ 32
    let s1 := sys_send env w client_socket (u32_bytes env.byteOrder length)
    if s1.1 = -1 then (some false, s1.2)
    else
      let s2 := sys_send env s1.2 client_socket buffer
      if s2.1 = -1 then (some false, s2.2) else (some true, s2.2)

/-! ## `stream_single_camera` -/

/-- Where the control of `stream_single_camera` stands, at the granularity of its loop
heads. -/
inductive Ctl where
  /-- line 93, before the capture is constructed -/
  | entry
  /-- line 100, head of the outer `while (true)` -/
  | connecting
  /-- line 111, head of the inner `while (true)`, holding `client_socket` -/
  | streaming (client_socket : Int)
  /-- after the `return` of line 97 -/
  | returned
  deriving DecidableEq, Repr

/-- A worker: control point and outside state. -/
structure Worker where
  ctl : Ctl
  world : World
  deriving DecidableEq, Repr

/-- The worker at the call of `stream_single_camera`. -/
def Worker.init : Worker := ⟨Ctl.entry, World.init⟩

/-- Leaving the `try` block (by `break` or by an exception caught at line 132): the
`finally` block closes the socket (line 135), then line 138 releases the capture, and
control is back at the head of the outer loop. -/
def leave_try (client_socket : Int) (w : World) : Worker :=
  ⟨Ctl.connecting, cap_release (sys_close client_socket w)⟩

/-- One pass of `stream_single_camera` (lines 91-141) from one control point to the next:
from the entry through the open check, from the head of the outer loop through one
`create_socket`, from the head of the inner loop through one frame. Inside the `try`
block the calls that may throw are `cap >> frame` and, within `send_frame`,
`cv::imencode`; `finally` is taken as running on every exit from the `try` block. -/
def step (env : Env) (wk : Worker) : Worker :=
  match wk.ctl with
  | .entry =>
    let o := cap_open env wk.world
    if !o.1 then ⟨Ctl.returned, o.2⟩ else ⟨Ctl.connecting, o.2⟩
  | .connecting =>
    let c := create_socket env wk.world
    if c.1 = -1 then ⟨Ctl.connecting, sleep_for 5 c.2⟩
    else ⟨Ctl.streaming c.1, c.2⟩
  | .streaming client_socket =>
    let rd := cap_read env wk.world
    match rd.1 with
    | .throws => leave_try client_socket rd.2
    | .frame frame =>
      if frame.empty then
        let w2 := sleep_for 1 (cap_release rd.2)
        let o := cap_open env w2
        if !o.1 then leave_try client_socket o.2
        else ⟨Ctl.streaming client_socket, o.2⟩
      else
        let s := send_frame env rd.2 client_socket frame
        match s.1 with
        | none => leave_try client_socket s.2
        | some false => leave_try client_socket s.2
        | some true => ⟨Ctl.streaming client_socket, s.2⟩
  | .returned => wk

/-- The worker after `n` passes. -/
def run (env : Env) : Nat → Worker → Worker
  | 0, wk => wk
  | n + 1, wk => run env n (step env wk)

/-- Source `stream_single_camera` (lines 91-141), followed from its call for `passes`
passes: where control stands then and what has been done so far. -/
def stream_single_camera (env : Env) (passes : Nat) : Worker :=
  run env passes Worker.init

/-- Whether the worker driven by `env` ever comes back from `stream_single_camera`.
It is read off the first pass; `worker_ends_iff` shows that no later pass can end it. -/
def worker_ends (env : Env) : Bool :=
  decide ((stream_single_camera env 1).ctl = Ctl.returned)

/-! ## Reading a trace -/

/-- The bytes handed to `send` on descriptor `fd`, in order. -/
def handed (fd : Int) : List Event → List Nat
  | [] => []
  | Event.send fd0 data _ :: es => if fd0 = fd then data ++ handed fd es else handed fd es
  | _ :: es => handed fd es

/-- The bytes the socket layer took on descriptor `fd`: a `send` that returns `r ≥ 0` has
taken the first `r` bytes it was handed, a `send` that returns `-1` has taken none. -/
def written (fd : Int) : List Event → List Nat
  | [] => []
  | Event.send fd0 data r :: es =>
    if fd0 = fd then data.take r.toNat ++ written fd es else written fd es
  | _ :: es => written fd es

/-- The durations of the sleeps of a trace, in order. -/
def sleeps : List Event → List Nat
  | [] => []
  | Event.sleep secs :: es => secs :: sleeps es
  | _ :: es => sleeps es

/-- Calls on the capture session that open or release it. -/
def is_cap_op : Event → Bool
  | Event.capOpen _ => true
  | Event.capRelease => true
  | _ => false

/-- Calls on the socket layer. -/
def is_conn_op : Event → Bool
  | Event.socket _ => true
  | Event.connect _ _ => true
  | Event.send _ _ _ => true
  | Event.close _ => true
  | _ => false

/-- The connected socket a worker holds at a control point. -/
def held_of : Ctl → Option Int
  | Ctl.streaming client_socket => some client_socket
  | _ => none

/-- The descriptor table after one more event: a successful `socket()` adds its
descriptor, `close(fd)` removes it. -/
def fd_step (table : List Int) : Event → List Int
  | Event.socket ret => if ret < 0 then table else table ++ [ret]
  | Event.close fd => table.erase fd
  | _ => table

/-- The descriptors left open by a trace that started with none. -/
def open_fds (t : List Event) : List Int :=
  t.foldl fd_step []

/-- What a worker holds of its connection: the connected socket, if any, and whether a
`send` on it has already failed. -/
structure Conn where
  held : Option Int
  dead : Bool
  deriving DecidableEq, Repr

/-- The connection discipline, one event at a time; `none` is a violation.
* `socket()` or `connect()` while a connected socket is held: violation (a second
  connection would be opened before the first is closed);
* a `connect()` that succeeds makes its descriptor the held socket;
* `send(fd)` is allowed only on the held socket and only while no send on it has failed;
  a send that returns `-1` marks it dead;
* `close(fd)` is allowed only on the held socket (so never twice) and gives it up. -/
def conn_step (c : Conn) : Event → Option Conn
  | Event.socket _ => if c.held = none then some c else none
  | Event.connect fd ret =>
    if c.held = none then (if ret < 0 then some c else some ⟨some fd, false⟩) else none
  | Event.send fd _ ret =>
    if c.held = some fd ∧ c.dead = false then some ⟨some fd, decide (ret = -1)⟩ else none
  | Event.close fd => if c.held = some fd then some ⟨none, false⟩ else none
  | _ => some c

/-- Running the connection discipline over a trace. -/
def conn_run : Conn → List Event → Option Conn
  | c, [] => some c
  | c, e :: es => (conn_step c e).bind (fun c1 => conn_run c1 es)

/-- The events of the k-th call of `create_socket`, read off the environment. -/
def create_socket_events (env : Env) (k : Nat) : List Event :=
  if env.socketRet k < 0 then [Event.socket (env.socketRet k)]
  else [Event.socket (env.socketRet k), Event.connect (env.socketRet k) (env.connectRet k)]

/-- Whether the k-th call of `create_socket` fails: `socket()` or `connect()` is negative. -/
def connect_fails (env : Env) (k : Nat) : Bool :=
  decide (env.socketRet k < 0) || decide (env.connectRet k < 0)

/-- The expected trace of a connect phase that starts at call number `c`, fails `K` times
and then succeeds: each failed call followed by a sleep of 5, then the successful call. -/
def retry_events (env : Env) : Nat → Nat → List Event
  | c, 0 => create_socket_events env c
  | c, K + 1 => create_socket_events env c ++ [Event.sleep 5] ++ retry_events env (c + 1) K

/-- The expected trace of `M` empty reads starting at read number `r` with each reopen
succeeding: read, release, sleep of 1, open. -/
def reopen_events (env : Env) : Nat → Nat → List Event
  | _, 0 => []
  | r, M + 1 =>
    [Event.capRead (env.readRet r), Event.capRelease, Event.sleep 1, Event.capOpen true]
      ++ reopen_events env (r + 1) M

/-- Whether a read delivered an empty frame. -/
def is_empty_read : ReadOutcome → Bool
  | .frame m => m.empty
  | .throws => false

/-! ## `stream_multiple_cameras` and `main` -/

/-- The arguments of one call of `stream_single_camera`. -/
structure WorkerCall where
  ip_address : String
  vps_ip : String
  vps_port : Nat
  cam_user : String
  cam_password : String
  deriving DecidableEq, Repr

/-- First loop of `stream_multiple_cameras` (lines 146-148): one `threads.push_back` per
address, in list order. `threads` is the vector built so far. -/
def spawn_loop (vps_ip : String) (vps_port : Nat) (cam_user cam_password : String) :
    List String → List WorkerCall → List WorkerCall
  | [], threads => threads
  | ip_address :: rest, threads =>
    spawn_loop vps_ip vps_port cam_user cam_password rest
      (threads ++ [⟨ip_address, vps_ip, vps_port, cam_user, cam_password⟩])

/-- Second loop of `stream_multiple_cameras` (lines 150-152): `th.join()` in vector order.
`ends k` says whether the k-th thread ever ends; `join` on a thread that never ends does
not come back. The result is whether the loop completes, and how many joins came back. -/
def join_loop (ends : Nat → Bool) : Nat → Nat → Bool × Nat
  | _, 0 => (true, 0)
  | k, n + 1 =>
    if ends k then ((join_loop ends (k + 1) n).1, (join_loop ends (k + 1) n).2 + 1)
    else (false, 0)

/-- What `stream_multiple_cameras` did: the threads it started, how many joins came back,
and whether it returned. -/
structure Supervised where
  threads : List WorkerCall
  joined : Nat
  returned : Bool
  deriving DecidableEq, Repr

/-- Source `stream_multiple_cameras` (lines 144-155). The k-th thread runs a worker in the
environment `envs k`. -/
def stream_multiple_cameras (envs : Nat → Env) (ip_list : List String) (vps_ip : String)
    (vps_port : Nat) (cam_user cam_password : String) : Supervised :=
  let threads := spawn_loop vps_ip vps_port cam_user cam_password ip_list []
  let j := join_loop (fun k => worker_ends (envs k)) 0 threads.length
  ⟨threads, j.2, j.1⟩

/-- What `main` did: the calls of `stream_single_camera` it made and the lines it printed. -/
structure MainRun where
  workers : List WorkerCall
  printed : List String
  deriving DecidableEq, Repr

/-- Source `main` (lines 157-178), from the list returned by `get_list_camera_IP` on:
on a non-empty list it calls `stream_single_camera` on `list_ip_address[0]`, directly and
not through `stream_multiple_cameras`, and otherwise prints a line. -/
def main (list_ip_address : List String) : MainRun :=
  match list_ip_address with
  | ip_address :: _ => ⟨[⟨ip_address, "160.22.122.122", 8000, "admin", "CamProject12"⟩], []⟩
  | [] => ⟨[], ["No cameras found!"]⟩

/-! ## Sample environments -/

/-- A little-endian host on which everything succeeds: the capture opens, every frame is
the three-byte picture `[255, 216, 255]`, `socket()` hands out descriptors 3, 4, 5, ...,
`connect()` returns 0 and every `send` takes all it is given (4 bytes for the header, 3 for
the picture). -/
def calmEnv : Env where
  byteOrder := ByteOrder.little
  isOpened := fun _ => true
  socketRet := fun k => 3 + (k : Int)
  connectRet := fun _ => 0
  readRet := fun _ => ReadOutcome.frame ⟨false, some [255, 216, 255]⟩
  sendRet := fun k => if k % 2 = 0 then 4 else 3

/-- The picture delivered by the sample environments. -/
def sampleFrame : Mat := ⟨false, some [255, 216, 255]⟩

/-- As `calmEnv`, but the socket layer takes only part of what it is given: 2 of the 4
header bytes, then 1 of the 3 picture bytes. -/
def shortWriteEnv : Env :=
  { calmEnv with sendRet := fun k => if k % 2 = 0 then 2 else 1 }

/-- An empty frame, as `cap >> frame` delivers when the capture has nothing to give. -/
def emptyFrame : Mat := ⟨true, none⟩

/-- As `calmEnv`, but the first `send` fails; the reads that follow the first one find the
capture released and deliver empty frames. -/
def sendFailEnv : Env :=
  { calmEnv with
    sendRet := fun k => if k = 0 then -1 else if k % 2 = 1 then 4 else 3
    readRet := fun k => if k = 0 then ReadOutcome.frame sampleFrame
      else ReadOutcome.frame emptyFrame }

/-- The camera opens once and never again, and delivers only empty frames. -/
def reopenFailEnv : Env :=
  { calmEnv with
    isOpened := fun k => decide (k = 0)
    readRet := fun _ => ReadOutcome.frame emptyFrame }

/-- The camera cannot be opened at all. -/
def deadCameraEnv : Env :=
  { calmEnv with isOpened := fun _ => false }

/-- The server refuses every connection: `socket()` succeeds, `connect()` returns `-1`. -/
def refusedEnv : Env :=
  { calmEnv with connectRet := fun _ => -1 }

/-- The server refuses the first two connections and accepts the third. -/
def flakyServerEnv : Env :=
  { calmEnv with connectRet := fun k => if k < 2 then -1 else 0 }

/-- The camera delivers two empty frames, then pictures; every reopen succeeds. -/
def emptyReadsEnv : Env :=
  { calmEnv with
    readRet := fun k => if k < 2 then ReadOutcome.frame emptyFrame
      else ReadOutcome.frame sampleFrame }

/-- The capture opens, and the first `cap >> frame` throws. -/
def readThrowsEnv : Env :=
  { calmEnv with readRet := fun _ => ReadOutcome.throws }

/-- A frame that is not empty and on which `cv::imencode` throws. -/
def badFrame : Mat := ⟨false, none⟩

/-- The capture delivers frames on which the encoder throws. -/
def encoderThrowsEnv : Env :=
  { calmEnv with readRet := fun _ => ReadOutcome.frame badFrame }

/-- A worker streaming on descriptor 3 after one capture open and one `create_socket`. -/
def streamingOn3 : Worker :=
  ⟨Ctl.streaming 3, ⟨1, 1, 0, 0, [Event.capOpen true, Event.socket 3, Event.connect 3 0]⟩⟩

end HostCamera

/-! # Theorems -/

namespace HostCamera

/-! ## Bytes of a length -/

theorem u32_bytes_length (bo : ByteOrder) (v : Nat) : (u32_bytes bo v).length = 4 := by
  cases bo <;> rfl

theorem u32_bytes_lt (bo : ByteOrder) (v : Nat) : ∀ b ∈ u32_bytes bo v, b < 256 := by
  intro b hb
  cases bo <;> simp [u32_bytes] at hb <;> omega

theorem u32_value_bytes (bo : ByteOrder) (v : Nat) (hv : v < 2 ^ 32) :
    u32_value bo (u32_bytes bo v) = v := by
  cases bo <;> simp only [u32_bytes, u32_value] <;> omega

/-! ## Reading a trace: appends -/

theorem handed_append (fd : Int) (t1 t2 : List Event) :
    handed fd (t1 ++ t2) = handed fd t1 ++ handed fd t2 := by
  induction t1 with
  | nil => rfl
  | cons e es ih =>
    cases e <;> simp [handed, ih]
    split <;> simp

theorem written_append (fd : Int) (t1 t2 : List Event) :
    written fd (t1 ++ t2) = written fd t1 ++ written fd t2 := by
  induction t1 with
  | nil => rfl
  | cons e es ih =>
    cases e <;> simp [written, ih]
    split <;> simp

/-! ## `send_frame` -/

/-- The two outcomes of `send_frame` on a frame the encoder accepts, spelled out. -/
theorem send_frame_eq (env : Env) (w : World) (fd : Int) (frame : Mat) (buffer : List Nat)
    (hj : frame.jpeg = some buffer) :
    send_frame env w fd frame =
      if env.sendRet w.sends = -1 then
        (some false, { w with
          sends := w.sends + 1
          trace := w.trace ++
            [Event.send fd (u32_bytes env.byteOrder (buffer.length % 2 ^ 32))
              (env.sendRet w.sends)] })
      else
        (some (!decide (env.sendRet (w.sends + 1) = -1)), { w with
          sends := w.sends + 2
          trace := w.trace ++
            [Event.send fd (u32_bytes env.byteOrder (buffer.length % 2 ^ 32))
              (env.sendRet w.sends),
             Event.send fd buffer (env.sendRet (w.sends + 1))] }) := by
  unfold send_frame
  rw [hj]
  simp only [sys_send]
  by_cases h1 : env.sendRet w.sends = -1
  · simp [h1]
  · by_cases h2 : env.sendRet (w.sends + 1) = -1
    · simp [h1, h2]
    · simp [h1, h2]

/-- C1. For an encoded picture `buffer` of `L < 2 ^ 32` bytes, when `send_frame` returns
true the calls it added to the trace are exactly two `send`s on the socket, the first
handing over the four bytes of `L` in the byte order of the host (four bytes below 256
that read back as `L`), the second handing over `buffer` itself; so the bytes handed to
the socket are the header followed by the `L` payload bytes and nothing else. -/
theorem send_frame_wire (env : Env) (w : World) (client_socket : Int) (frame : Mat)
    (buffer : List Nat) (hj : frame.jpeg = some buffer) (hL : buffer.length < 2 ^ 32)
    (hret : (send_frame env w client_socket frame).1 = some true) :
    (send_frame env w client_socket frame).2.trace =
        w.trace ++
          [Event.send client_socket (u32_bytes env.byteOrder buffer.length)
              (env.sendRet w.sends),
           Event.send client_socket buffer (env.sendRet (w.sends + 1))]
      ∧ handed client_socket (send_frame env w client_socket frame).2.trace =
          handed client_socket w.trace ++ (u32_bytes env.byteOrder buffer.length ++ buffer)
      ∧ (u32_bytes env.byteOrder buffer.length).length = 4
      ∧ (∀ b ∈ u32_bytes env.byteOrder buffer.length, b < 256)
      ∧ u32_value env.byteOrder (u32_bytes env.byteOrder buffer.length) = buffer.length := by
  have hmod : buffer.length % 2 ^ 32 = buffer.length := Nat.mod_eq_of_lt hL
  rw [send_frame_eq env w client_socket frame buffer hj] at hret ⊢
  rw [hmod] at hret ⊢
  by_cases h1 : env.sendRet w.sends = -1
  · simp [h1] at hret
  · simp only [h1, if_false] at hret ⊢
    refine ⟨trivial, ?_, u32_bytes_length _ _, u32_bytes_lt _ _, u32_value_bytes _ _ hL⟩
    simp [handed_append, handed]

/-- Witness of `send_frame_wire`: the three-byte picture on a calm little-endian host. -/
theorem send_frame_wire_witness :
    sampleFrame.jpeg = some [255, 216, 255]
      ∧ (send_frame calmEnv World.init 3 sampleFrame).1 = some true
      ∧ (send_frame calmEnv World.init 3 sampleFrame).2.trace =
          [Event.send 3 [3, 0, 0, 0] 4, Event.send 3 [255, 216, 255] 3]
      ∧ handed 3 (send_frame calmEnv World.init 3 sampleFrame).2.trace =
          [3, 0, 0, 0, 255, 216, 255] :=
  have h := send_frame_wire calmEnv World.init 3 sampleFrame [255, 216, 255] rfl
    (by decide) (by decide)
  ⟨rfl, by decide, h.1, h.2.1⟩

/-- C3, counterexample. The socket layer takes 2 of the 4 header bytes and 1 of the 3
picture bytes; `send_frame` makes its two `send` calls, no third one, and returns true
although only 3 of the 7 bytes were written. -/
theorem send_frame_partial_write_counterexample :
    (send_frame shortWriteEnv World.init 3 sampleFrame).1 = some true
      ∧ (send_frame shortWriteEnv World.init 3 sampleFrame).2.sends = 2
      ∧ written 3 (send_frame shortWriteEnv World.init 3 sampleFrame).2.trace = [3, 0, 255]
      ∧ written 3 (send_frame shortWriteEnv World.init 3 sampleFrame).2.trace
          ≠ u32_bytes shortWriteEnv.byteOrder 3 ++ [255, 216, 255] := by
  decide

/-- C3, amended. On a frame the encoder accepts, `send_frame` makes one `send` for the
header and, unless that one returned `-1`, one `send` for the payload, and no other call;
it returns true exactly when neither returned `-1`. The bytes written are the whole
header and the whole payload when each of the two calls took all it was given. -/
theorem send_frame_no_retry (env : Env) (w : World) (client_socket : Int) (frame : Mat)
    (buffer : List Nat) (hj : frame.jpeg = some buffer) :
    ((send_frame env w client_socket frame).1 = some true ↔
        env.sendRet w.sends ≠ -1 ∧ env.sendRet (w.sends + 1) ≠ -1)
      ∧ (send_frame env w client_socket frame).2.sends =
          (if env.sendRet w.sends = -1 then w.sends + 1 else w.sends + 2)
      ∧ ((send_frame env w client_socket frame).1 = some true →
          env.sendRet w.sends = 4 → env.sendRet (w.sends + 1) = buffer.length →
          written client_socket (send_frame env w client_socket frame).2.trace =
            written client_socket w.trace ++
              (u32_bytes env.byteOrder (buffer.length % 2 ^ 32) ++ buffer)) := by
  rw [send_frame_eq env w client_socket frame buffer hj]
  by_cases h1 : env.sendRet w.sends = -1
  · simp [h1]
  · simp only [h1, if_false]
    refine ⟨by simp [h1], trivial, ?_⟩
    intro _ h4 hall
    have hlen : (u32_bytes env.byteOrder (buffer.length % 2 ^ 32)).length ≤ 4 :=
      le_of_eq (u32_bytes_length _ _)
    have htake : List.take 4 (u32_bytes env.byteOrder (buffer.length % 2 ^ 32)) =
        u32_bytes env.byteOrder (buffer.length % 2 ^ 32) := List.take_of_length_le hlen
    simp only [written_append, written, h4, hall, if_true, Int.toNat_ofNat, List.take_length]
    simp only [show ((4 : Int).toNat) = 4 from rfl, htake]
    simp

/-- Witness of `send_frame_no_retry`: the three-byte picture on a calm host. -/
theorem send_frame_no_retry_witness :
    sampleFrame.jpeg = some [255, 216, 255]
      ∧ (send_frame calmEnv World.init 3 sampleFrame).1 = some true
      ∧ (send_frame calmEnv World.init 3 sampleFrame).2.sends = 2
      ∧ written 3 (send_frame calmEnv World.init 3 sampleFrame).2.trace =
          [3, 0, 0, 0, 255, 216, 255] :=
  have h := send_frame_no_retry calmEnv World.init 3 sampleFrame [255, 216, 255] rfl
  ⟨rfl, by decide, h.2.1, h.2.2 (by decide) (by decide) (by decide)⟩

/-! ## The worker: general facts -/

theorem run_add (env : Env) (m n : Nat) (wk : Worker) :
    run env (m + n) wk = run env n (run env m wk) := by
  induction m generalizing wk with
  | zero => simp [run]
  | succ m ih => rw [Nat.succ_add]; exact ih (step env wk)

theorem run_succ_right (env : Env) (n : Nat) (wk : Worker) :
    run env (n + 1) wk = step env (run env n wk) := by
  rw [run_add]; rfl

/-- The outcome of `create_socket`, spelled out. -/
theorem create_socket_eq (env : Env) (w : World) :
    create_socket env w =
      (if connect_fails env w.conns then (-1 : Int) else env.socketRet w.conns,
        { w with
          conns := w.conns + 1
          trace := w.trace ++ create_socket_events env w.conns }) := by
  unfold create_socket connect_fails create_socket_events
  by_cases h1 : env.socketRet w.conns < 0
  · simp [h1]
  · by_cases h2 : env.connectRet w.conns < 0
    · simp [h1, h2]
    · simp [h1, h2]

theorem socketRet_ne_of_not_fails (env : Env) (k : Nat) (h : connect_fails env k = false) :
    env.socketRet k ≠ -1 := by
  unfold connect_fails at h
  simp at h
  omega

/-- The call `create_socket` returns `-1` exactly when `socket()` or `connect()` fails. -/
theorem create_socket_fails_iff (env : Env) (w : World) :
    (create_socket env w).1 = -1 ↔ connect_fails env w.conns = true := by
  rw [create_socket_eq]
  cases h : connect_fails env w.conns with
  | true => simp
  | false => simpa using socketRet_ne_of_not_fails env w.conns h

/-- One pass at the head of the outer loop when `create_socket` fails. -/
theorem step_connecting_fail (env : Env) (w : World) (h : connect_fails env w.conns = true) :
    step env ⟨Ctl.connecting, w⟩ =
      ⟨Ctl.connecting, { w with
        conns := w.conns + 1
        trace := w.trace ++ (create_socket_events env w.conns ++ [Event.sleep 5]) }⟩ := by
  simp [step, create_socket_eq, h, sleep_for]

/-- One pass at the head of the outer loop when `create_socket` succeeds. -/
theorem step_connecting_ok (env : Env) (w : World) (h : connect_fails env w.conns = false) :
    step env ⟨Ctl.connecting, w⟩ =
      ⟨Ctl.streaming (env.socketRet w.conns), { w with
        conns := w.conns + 1
        trace := w.trace ++ create_socket_events env w.conns }⟩ := by
  have hne := socketRet_ne_of_not_fails env w.conns h
  simp [step, create_socket_eq, h, hne]

/-- The connect phase: `K` failed calls of `create_socket`, then a successful one. -/
theorem connect_phase (env : Env) (K : Nat) : ∀ w : World,
    (∀ i, i < K → connect_fails env (w.conns + i) = true) →
    connect_fails env (w.conns + K) = false →
    run env (K + 1) ⟨Ctl.connecting, w⟩ =
      ⟨Ctl.streaming (env.socketRet (w.conns + K)), { w with
        conns := w.conns + K + 1
        trace := w.trace ++ retry_events env w.conns K }⟩ := by
  induction K with
  | zero =>
    intro w _ hok
    simp only [Nat.add_zero] at hok
    simp [run, step_connecting_ok env w hok, retry_events]
  | succ K ih =>
    intro w hfail hok
    have h0 : connect_fails env w.conns = true := by simpa using hfail 0 (Nat.succ_pos K)
    rw [run, step_connecting_fail env w h0]
    rw [ih]
    · simp [retry_events, Nat.add_assoc, Nat.add_comm 1 K]
    · intro i hi
      have := hfail (i + 1) (Nat.succ_lt_succ hi)
      simpa [Nat.add_assoc, Nat.add_comm 1 i] using this
    · simpa [Nat.add_assoc, Nat.add_comm 1 K] using hok

/-- While `create_socket` keeps failing the worker stays at the head of the outer loop. -/
theorem connect_phase_waiting (env : Env) (n : Nat) : ∀ w : World,
    (∀ i, i < n → connect_fails env (w.conns + i) = true) →
    (run env n ⟨Ctl.connecting, w⟩).ctl = Ctl.connecting
      ∧ (run env n ⟨Ctl.connecting, w⟩).world.conns = w.conns + n := by
  induction n with
  | zero => intro w _; simp [run]
  | succ n ih =>
    intro w hfail
    have h0 : connect_fails env w.conns = true := by simpa using hfail 0 (Nat.succ_pos n)
    rw [run, step_connecting_fail env w h0]
    have := ih { w with
        conns := w.conns + 1
        trace := w.trace ++ (create_socket_events env w.conns ++ [Event.sleep 5]) } (by
      intro i hi
      have := hfail (i + 1) (Nat.succ_lt_succ hi)
      simpa [Nat.add_assoc, Nat.add_comm 1 i] using this)
    refine ⟨this.1, ?_⟩
    rw [this.2]
    simp [Nat.add_assoc, Nat.add_comm 1 n]

theorem sleeps_append (t1 t2 : List Event) : sleeps (t1 ++ t2) = sleeps t1 ++ sleeps t2 := by
  induction t1 with
  | nil => rfl
  | cons e es ih => cases e <;> simp [sleeps, ih]

theorem sleeps_create_socket_events (env : Env) (k : Nat) :
    sleeps (create_socket_events env k) = [] := by
  unfold create_socket_events
  split <;> rfl

theorem sleeps_retry_events (env : Env) (K : Nat) : ∀ c : Nat,
    sleeps (retry_events env c K) = List.replicate K 5 := by
  induction K with
  | zero => intro c; simp [retry_events, sleeps_create_socket_events]
  | succ K ih =>
    intro c
    simp [retry_events, sleeps_append, sleeps_create_socket_events, ih, sleeps,
      List.replicate_succ]

theorem cap_op_create_socket_events (env : Env) (k : Nat) :
    ∀ e ∈ create_socket_events env k, is_cap_op e = false := by
  intro e he
  unfold create_socket_events at he
  split at he
  · simp at he; subst he; rfl
  · simp at he; rcases he with h | h <;> subst h <;> rfl

theorem cap_op_retry_events (env : Env) (K : Nat) : ∀ c : Nat,
    ∀ e ∈ retry_events env c K, is_cap_op e = false := by
  induction K with
  | zero =>
    intro c e he
    exact cap_op_create_socket_events env c e (by simpa [retry_events] using he)
  | succ K ih =>
    intro c e he
    simp only [retry_events, List.mem_append, List.mem_singleton] at he
    rcases he with (h | h) | h
    · exact cap_op_create_socket_events env c e h
    · subst h; rfl
    · exact ih (c + 1) e h

/-! ## The connect loop -/

/-- C7. If `create_socket` fails on its first `K` calls and succeeds on call `K + 1`, then
after a successful initial capture open the worker reaches the streaming loop after
exactly `K + 1` calls of `create_socket` (the counter `conns` and the trace show them),
not earlier; its trace is the capture open followed by each failed call with a sleep of 5
right after it and then the successful call, so the sleeps of that phase are `K` sleeps of
5; and the socket it streams on is the one returned by call `K + 1`. -/
theorem connect_retries (env : Env) (K : Nat) (hopen : env.isOpened 0 = true)
    (hfail : ∀ i, i < K → connect_fails env i = true)
    (hok : connect_fails env K = false) :
    stream_single_camera env (K + 2) =
        ⟨Ctl.streaming (env.socketRet K),
          ⟨1, K + 1, 0, 0, [Event.capOpen true] ++ retry_events env 0 K⟩⟩
      ∧ (∀ w : World, w.conns = K → (create_socket env w).1 = env.socketRet K)
      ∧ (∀ n, n ≤ K + 1 → ∀ s, (stream_single_camera env n).ctl ≠ Ctl.streaming s)
      ∧ sleeps (retry_events env 0 K) = List.replicate K 5
      ∧ (∀ e ∈ retry_events env 0 K, is_cap_op e = false) := by
  simp only [stream_single_camera]
  have hstep : step env Worker.init = ⟨Ctl.connecting, ⟨1, 0, 0, 0, [Event.capOpen true]⟩⟩ := by
    simp [step, Worker.init, World.init, cap_open, hopen]
  refine ⟨?_, ?_, ?_, sleeps_retry_events env K 0, cap_op_retry_events env K 0⟩
  · have h := connect_phase env K ⟨1, 0, 0, 0, [Event.capOpen true]⟩
      (by simpa using hfail) (by simpa using hok)
    rw [show K + 2 = (K + 1) + 1 from rfl, run, hstep, h]
    simp
  · intro w hw
    simp [create_socket_eq, hw, hok]
  · intro n hn s
    cases n with
    | zero => simp [run, Worker.init]
    | succ n =>
      rw [run, hstep]
      have h := connect_phase_waiting env n ⟨1, 0, 0, 0, [Event.capOpen true]⟩ (by
        intro i hi
        simpa using hfail i (by omega))
      rw [h.1]
      simp

/-- Witness of `connect_retries`: two refused connections, then an accepted one. The two
descriptors of the refused attempts are 3 and 4, the worker streams on 5. -/
theorem connect_retries_witness :
    flakyServerEnv.isOpened 0 = true
      ∧ (∀ i, i < 2 → connect_fails flakyServerEnv i = true)
      ∧ connect_fails flakyServerEnv 2 = false
      ∧ stream_single_camera flakyServerEnv 4 =
          ⟨Ctl.streaming 5, ⟨1, 3, 0, 0,
            [Event.capOpen true,
             Event.socket 3, Event.connect 3 (-1), Event.sleep 5,
             Event.socket 4, Event.connect 4 (-1), Event.sleep 5,
             Event.socket 5, Event.connect 5 0]⟩⟩ :=
  ⟨rfl, by decide, by decide,
    (connect_retries flakyServerEnv 2 rfl (by decide) (by decide)).1.trans (by decide)⟩

/-! ## The streaming loop -/

/-- One pass of the inner loop on a non-empty frame whose `send_frame` returns false. -/
theorem step_streaming_send_fail (env : Env) (w : World) (client_socket : Int) (m : Mat)
    (hread : env.readRet w.reads = ReadOutcome.frame m) (hne : m.empty = false)
    (hsend : (send_frame env (cap_read env w).2 client_socket m).1 = some false) :
    step env ⟨Ctl.streaming client_socket, w⟩ =
      leave_try client_socket (send_frame env (cap_read env w).2 client_socket m).2 := by
  have h1 : (cap_read env w).1 = ReadOutcome.frame m := by simp [cap_read, hread]
  simp only [step, h1, hne]
  simp [hsend]

/-- One pass of the inner loop on an empty frame when the reopen succeeds. -/
theorem step_streaming_empty_ok (env : Env) (w : World) (client_socket : Int)
    (hread : is_empty_read (env.readRet w.reads) = true)
    (hopen : env.isOpened w.opens = true) :
    step env ⟨Ctl.streaming client_socket, w⟩ =
      ⟨Ctl.streaming client_socket, { w with
        opens := w.opens + 1
        reads := w.reads + 1
        trace := w.trace ++
          [Event.capRead (env.readRet w.reads), Event.capRelease, Event.sleep 1,
            Event.capOpen true] }⟩ := by
  cases hr : env.readRet w.reads with
  | throws => rw [hr] at hread; simp [is_empty_read] at hread
  | frame m =>
    rw [hr] at hread
    simp only [is_empty_read] at hread
    have h1 : (cap_read env w).1 = ReadOutcome.frame m := by simp [cap_read, hr]
    simp only [step, h1, hread]
    simp [cap_open, sleep_for, cap_release, cap_read, hopen, hr]

/-- C2, counterexample. The capture is open, the worker streams on descriptor 3 and the
first `send` fails. The worker closes 3 and connects again (descriptor 4), but between
the failed send and that connect it calls `cap.release()`: the capture session does not
stay open across the transition. -/
theorem send_failure_releases_capture_counterexample :
    (stream_single_camera sendFailEnv 4).ctl = Ctl.streaming 4
      ∧ (stream_single_camera sendFailEnv 4).world.trace =
          [Event.capOpen true, Event.socket 3, Event.connect 3 0,
           Event.capRead (ReadOutcome.frame sampleFrame), Event.send 3 [3, 0, 0, 0] (-1),
           Event.close 3, Event.capRelease, Event.socket 4, Event.connect 4 0]
      ∧ ((stream_single_camera sendFailEnv 4).world.trace.drop 5).any is_cap_op = true := by
  decide

/-- C2, amended. When the worker is streaming, reads a non-empty frame and `send_frame`
returns false, it closes the socket, then releases the capture once (line 138) and is back
at the head of the connect loop; if `create_socket` then fails `K` times and succeeds,
everything the worker does after the release up to and including the successful connect
is socket calls and sleeps: no call opens or releases the capture there. -/
theorem send_failure_transition (env : Env) (w : World) (client_socket : Int) (m : Mat)
    (K : Nat) (hread : env.readRet w.reads = ReadOutcome.frame m) (hne : m.empty = false)
    (hsend : (send_frame env (cap_read env w).2 client_socket m).1 = some false)
    (hfail : ∀ i, i < K → connect_fails env (w.conns + i) = true)
    (hok : connect_fails env (w.conns + K) = false) :
    step env ⟨Ctl.streaming client_socket, w⟩ =
        ⟨Ctl.connecting, { (send_frame env (cap_read env w).2 client_socket m).2 with
          trace := (send_frame env (cap_read env w).2 client_socket m).2.trace ++
            [Event.close client_socket, Event.capRelease] }⟩
      ∧ run env (K + 2) ⟨Ctl.streaming client_socket, w⟩ =
        ⟨Ctl.streaming (env.socketRet (w.conns + K)),
          { (send_frame env (cap_read env w).2 client_socket m).2 with
            conns := w.conns + K + 1
            trace := (send_frame env (cap_read env w).2 client_socket m).2.trace ++
              [Event.close client_socket, Event.capRelease] ++
              retry_events env w.conns K }⟩
      ∧ (∀ e ∈ retry_events env w.conns K, is_cap_op e = false) := by
  have hconns : (send_frame env (cap_read env w).2 client_socket m).2.conns = w.conns := by
    unfold send_frame
    cases m.jpeg with
    | none => simp [cap_read]
    | some buffer =>
      simp only [sys_send, cap_read]
      split
      · rfl
      · split <;> rfl
  have hs := step_streaming_send_fail env w client_socket m hread hne hsend
  have hleave : leave_try client_socket (send_frame env (cap_read env w).2 client_socket m).2 =
      ⟨Ctl.connecting, { (send_frame env (cap_read env w).2 client_socket m).2 with
          trace := (send_frame env (cap_read env w).2 client_socket m).2.trace ++
            [Event.close client_socket, Event.capRelease] }⟩ := by
    simp [leave_try, cap_release, sys_close]
  refine ⟨hs.trans hleave, ?_, cap_op_retry_events env K w.conns⟩
  rw [show K + 2 = (K + 1) + 1 from rfl, run, hs, hleave]
  rw [connect_phase env K _ (by simpa [hconns] using hfail) (by simpa [hconns] using hok)]
  simp [hconns]

/-- Witness of `send_failure_transition`: streaming on descriptor 3, the first `send`
fails, the next connection is accepted at once (`K = 0`). -/
theorem send_failure_transition_witness :
    sendFailEnv.readRet 0 = ReadOutcome.frame sampleFrame
      ∧ (send_frame sendFailEnv (cap_read sendFailEnv streamingOn3.world).2 3 sampleFrame).1
          = some false
      ∧ run sendFailEnv 2 streamingOn3 =
          ⟨Ctl.streaming 4, ⟨1, 2, 1, 1,
            [Event.capOpen true, Event.socket 3, Event.connect 3 0,
             Event.capRead (ReadOutcome.frame sampleFrame), Event.send 3 [3, 0, 0, 0] (-1),
             Event.close 3, Event.capRelease, Event.socket 4, Event.connect 4 0]⟩⟩ :=
  ⟨rfl, by decide,
    (send_failure_transition sendFailEnv streamingOn3.world 3 sampleFrame 0 rfl rfl
      (by decide) (by decide) (by decide)).2.1.trans (by decide)⟩

/-- C8. From the head of the streaming loop, `M` consecutive empty reads with every reopen
succeeding take the worker through `M` passes of read, release, sleep, open and leave it
at the head of the streaming loop on the same socket: the trace grows by exactly `M`
such cycles, which contain no socket call at all (no `create_socket`, no `send`, no
`close`), and the counters of `create_socket` calls and of `send` calls do not move. -/
theorem empty_frames_reopen (env : Env) (M : Nat) : ∀ (w : World) (client_socket : Int),
    (∀ i, i < M → is_empty_read (env.readRet (w.reads + i)) = true) →
    (∀ i, i < M → env.isOpened (w.opens + i) = true) →
    run env M ⟨Ctl.streaming client_socket, w⟩ =
        ⟨Ctl.streaming client_socket, { w with
          opens := w.opens + M
          reads := w.reads + M
          trace := w.trace ++ reopen_events env w.reads M }⟩
      ∧ (reopen_events env w.reads M).count Event.capRelease = M
      ∧ (reopen_events env w.reads M).count (Event.capOpen true) = M
      ∧ (∀ e ∈ reopen_events env w.reads M, is_conn_op e = false) := by
  induction M with
  | zero => intro w s _ _; simp [run, reopen_events]
  | succ M ih =>
    intro w s hempty hopen
    have he0 : is_empty_read (env.readRet w.reads) = true := by
      simpa using hempty 0 (Nat.succ_pos M)
    have ho0 : env.isOpened w.opens = true := by simpa using hopen 0 (Nat.succ_pos M)
    have h := ih { w with
        opens := w.opens + 1
        reads := w.reads + 1
        trace := w.trace ++
          [Event.capRead (env.readRet w.reads), Event.capRelease, Event.sleep 1,
            Event.capOpen true] } s
      (by
        intro i hi
        have := hempty (i + 1) (Nat.succ_lt_succ hi)
        simpa [Nat.add_assoc, Nat.add_comm 1 i] using this)
      (by
        intro i hi
        have := hopen (i + 1) (Nat.succ_lt_succ hi)
        simpa [Nat.add_assoc, Nat.add_comm 1 i] using this)
    simp only at h
    refine ⟨?_, ?_, ?_, ?_⟩
    · rw [run, step_streaming_empty_ok env w s he0 ho0, h.1]
      simp [reopen_events, Nat.add_assoc, Nat.add_comm 1 M]
    · simp only [reopen_events, List.cons_append, List.nil_append]
      simp [List.count_cons, h.2.1]
    · simp only [reopen_events, List.cons_append, List.nil_append]
      simp [List.count_cons, h.2.2.1]
    · intro e he
      simp only [reopen_events, List.cons_append, List.nil_append, List.mem_cons] at he
      rcases he with h1 | h1 | h1 | h1 | h1
      · subst h1; rfl
      · subst h1; rfl
      · subst h1; rfl
      · subst h1; rfl
      · exact h.2.2.2 e h1

/-- Witness of `empty_frames_reopen`: two empty frames while streaming on descriptor 3. -/
theorem empty_frames_reopen_witness :
    (∀ i, i < 2 → is_empty_read (emptyReadsEnv.readRet (streamingOn3.world.reads + i)) = true)
      ∧ (∀ i, i < 2 → emptyReadsEnv.isOpened (streamingOn3.world.opens + i) = true)
      ∧ run emptyReadsEnv 2 streamingOn3 =
          ⟨Ctl.streaming 3, ⟨3, 1, 2, 0,
            [Event.capOpen true, Event.socket 3, Event.connect 3 0,
             Event.capRead (ReadOutcome.frame emptyFrame), Event.capRelease, Event.sleep 1,
             Event.capOpen true,
             Event.capRead (ReadOutcome.frame emptyFrame), Event.capRelease, Event.sleep 1,
             Event.capOpen true]⟩⟩ :=
  ⟨by decide, by decide,
    (empty_frames_reopen emptyReadsEnv 2 streamingOn3.world 3 (by decide) (by decide)).1.trans
      (by decide)⟩

/-! ## When the worker returns -/

/-- The only pass that can end the worker is the one from the entry, on a failed open. -/
theorem step_returned_iff (env : Env) (wk : Worker) :
    (step env wk).ctl = Ctl.returned ↔
      wk.ctl = Ctl.returned ∨ (wk.ctl = Ctl.entry ∧ env.isOpened wk.world.opens = false) := by
  obtain ⟨ctl, w⟩ := wk
  cases ctl with
  | entry =>
    cases h : env.isOpened w.opens <;> simp [step, cap_open, h]
  | connecting =>
    simp only [step]
    split <;> simp
  | streaming s =>
    simp only [step]
    split
    · simp [leave_try]
    · split
      · split <;> simp [leave_try]
      · split <;> simp [leave_try]
  | returned => simp [step]

/-- After the entry pass the worker is never at the entry again. -/
theorem step_ne_entry (env : Env) (wk : Worker) (h : wk.ctl ≠ Ctl.entry) :
    (step env wk).ctl ≠ Ctl.entry := by
  obtain ⟨ctl, w⟩ := wk
  cases ctl with
  | entry => exact absurd rfl h
  | connecting =>
    simp only [step]
    split <;> simp
  | streaming s =>
    simp only [step]
    split
    · simp [leave_try]
    · split
      · split <;> simp [leave_try]
      · split <;> simp [leave_try]
  | returned => simp [step]

/-- A worker that is past the entry and has not returned never returns. -/
theorem run_never_returns (env : Env) (n : Nat) : ∀ wk : Worker,
    wk.ctl ≠ Ctl.entry → wk.ctl ≠ Ctl.returned →
    (run env n wk).ctl ≠ Ctl.entry ∧ (run env n wk).ctl ≠ Ctl.returned := by
  induction n with
  | zero => intro wk h1 h2; exact ⟨h1, h2⟩
  | succ n ih =>
    intro wk h1 h2
    rw [run]
    refine ih (step env wk) (step_ne_entry env wk h1) ?_
    intro h
    rcases (step_returned_iff env wk).1 h with h3 | h3
    · exact h2 h3
    · exact h1 h3.1

/-- A worker that has returned stays as it is. -/
theorem run_returned (env : Env) (n : Nat) (w : World) :
    run env n ⟨Ctl.returned, w⟩ = ⟨Ctl.returned, w⟩ := by
  induction n with
  | zero => rfl
  | succ n ih => rw [run]; simpa [step] using ih

/-- The run of a worker whose first open fails. -/
theorem run_init_dead (env : Env) (n : Nat) (h : env.isOpened 0 = false) :
    run env (n + 1) Worker.init = ⟨Ctl.returned, ⟨1, 0, 0, 0, [Event.capOpen false]⟩⟩ := by
  have hstep : step env Worker.init = ⟨Ctl.returned, ⟨1, 0, 0, 0, [Event.capOpen false]⟩⟩ := by
    simp [step, Worker.init, World.init, cap_open, h]
  rw [run, hstep, run_returned]

/-- The worker has returned after `n` passes exactly when there was a first pass and the
first open failed. -/
theorem run_init_returned_iff (env : Env) (n : Nat) :
    (run env n Worker.init).ctl = Ctl.returned ↔ 0 < n ∧ env.isOpened 0 = false := by
  cases n with
  | zero => simp [run, Worker.init]
  | succ n =>
    cases h : env.isOpened 0 with
    | false => simp [run_init_dead env n h]
    | true =>
      have hstep : step env Worker.init =
          ⟨Ctl.connecting, ⟨1, 0, 0, 0, [Event.capOpen true]⟩⟩ := by
        simp [step, Worker.init, World.init, cap_open, h]
      have := (run_never_returns env n ⟨Ctl.connecting, ⟨1, 0, 0, 0, [Event.capOpen true]⟩⟩
        (by simp) (by simp)).2
      rw [run, hstep]
      simpa using this

theorem worker_ends_iff (env : Env) :
    worker_ends env = true ↔ ∃ n, (stream_single_camera env n).ctl = Ctl.returned := by
  unfold worker_ends
  simp only [stream_single_camera]
  rw [decide_eq_true_iff, run_init_returned_iff]
  constructor
  · intro h
    exact ⟨1, (run_init_returned_iff env 1).2 h⟩
  · rintro ⟨n, hn⟩
    exact ⟨Nat.one_pos, ((run_init_returned_iff env n).1 hn).2⟩

/-- C4, counterexample. First half: the camera opens once and never again, so the first
reopen fails (third pass); the worker does not return, it closes the socket, releases
the capture and connects again (fourth pass, descriptor 4). Second half: a camera that
cannot be opened at all ends the worker at once, with no reopen attempt before it. -/
theorem failed_reopen_does_not_end_counterexample :
    stream_single_camera reopenFailEnv 3 =
        ⟨Ctl.connecting, ⟨2, 1, 1, 0,
          [Event.capOpen true, Event.socket 3, Event.connect 3 0,
           Event.capRead (ReadOutcome.frame emptyFrame), Event.capRelease, Event.sleep 1,
           Event.capOpen false, Event.close 3, Event.capRelease]⟩⟩
      ∧ (stream_single_camera reopenFailEnv 4).ctl = Ctl.streaming 4
      ∧ (stream_single_camera reopenFailEnv 40).ctl ≠ Ctl.returned
      ∧ stream_single_camera deadCameraEnv 1 =
          ⟨Ctl.returned, ⟨1, 0, 0, 0, [Event.capOpen false]⟩⟩ := by
  decide

/-- One pass of the inner loop when `cap >> frame` throws. -/
theorem step_streaming_read_throws (env : Env) (w : World) (client_socket : Int)
    (hread : env.readRet w.reads = ReadOutcome.throws) :
    step env ⟨Ctl.streaming client_socket, w⟩ =
      ⟨Ctl.connecting, { w with
        reads := w.reads + 1
        trace := w.trace ++
          [Event.capRead ReadOutcome.throws, Event.close client_socket, Event.capRelease] }⟩ := by
  have h1 : (cap_read env w).1 = ReadOutcome.throws := by simp [cap_read, hread]
  simp only [step, h1]
  simp [leave_try, cap_release, sys_close, cap_read, hread]

/-- One pass of the inner loop on a non-empty frame on which the encoder throws. -/
theorem step_streaming_encoder_throws (env : Env) (w : World) (client_socket : Int) (m : Mat)
    (hread : env.readRet w.reads = ReadOutcome.frame m) (hne : m.empty = false)
    (hj : m.jpeg = none) :
    step env ⟨Ctl.streaming client_socket, w⟩ =
      ⟨Ctl.connecting, { w with
        reads := w.reads + 1
        trace := w.trace ++
          [Event.capRead (ReadOutcome.frame m), Event.close client_socket,
            Event.capRelease] }⟩ := by
  have h1 : (cap_read env w).1 = ReadOutcome.frame m := by simp [cap_read, hread]
  have hs : send_frame env (cap_read env w).2 client_socket m = (none, (cap_read env w).2) := by
    simp [send_frame, hj]
  simp only [step, h1, hne, hs]
  simp [leave_try, cap_release, sys_close, cap_read, hread]

/-- One pass of the inner loop on an empty frame when the reopen fails. -/
theorem step_streaming_reopen_fails (env : Env) (w : World) (client_socket : Int)
    (hread : is_empty_read (env.readRet w.reads) = true)
    (hopen : env.isOpened w.opens = false) :
    step env ⟨Ctl.streaming client_socket, w⟩ =
      ⟨Ctl.connecting, { w with
        opens := w.opens + 1
        reads := w.reads + 1
        trace := w.trace ++
          [Event.capRead (env.readRet w.reads), Event.capRelease, Event.sleep 1,
            Event.capOpen false, Event.close client_socket, Event.capRelease] }⟩ := by
  cases hr : env.readRet w.reads with
  | throws => rw [hr] at hread; simp [is_empty_read] at hread
  | frame m =>
    rw [hr] at hread
    simp only [is_empty_read] at hread
    have h1 : (cap_read env w).1 = ReadOutcome.frame m := by simp [cap_read, hr]
    simp only [step, h1, hread]
    simp [leave_try, cap_open, sleep_for, cap_release, sys_close, cap_read, hopen, hr]

/-- C4, amended. `stream_single_camera` returns exactly when the first open of the capture
(the constructor at line 93) fails: then it returns in its first pass, having made no
other call. In every other run it has not returned after any number of passes, and each
failure it meets takes it, in the very next pass, back to the head of the connect loop:
* `create_socket` returning `-1`: the calls of `create_socket`, then a sleep of 5;
* `cap >> frame` throwing, or `cv::imencode` throwing on a non-empty frame: after the
  read, `close(client_socket)` and `cap.release()`;
* `send_frame` returning false (a `send` returned `-1`): after the calls of `send_frame`,
  `close(client_socket)` and `cap.release()`;
* an empty frame whose reopen fails: read, release, sleep of 1, the failed open, then
  `close(client_socket)` and `cap.release()`. -/
theorem worker_returns_iff_first_open_fails (env : Env) (n : Nat) :
    ((stream_single_camera env n).ctl = Ctl.returned ↔ 0 < n ∧ env.isOpened 0 = false)
      ∧ ((stream_single_camera env n).ctl = Ctl.returned →
          stream_single_camera env n =
            ⟨Ctl.returned, ⟨1, 0, 0, 0, [Event.capOpen false]⟩⟩)
      ∧ ((stream_single_camera env n).ctl = Ctl.connecting →
          (create_socket env (stream_single_camera env n).world).1 = -1 →
          (stream_single_camera env (n + 1)).ctl = Ctl.connecting
            ∧ (stream_single_camera env (n + 1)).world.trace =
                (create_socket env (stream_single_camera env n).world).2.trace
                  ++ [Event.sleep 5])
      ∧ (∀ s, (stream_single_camera env n).ctl = Ctl.streaming s →
          env.readRet (stream_single_camera env n).world.reads = ReadOutcome.throws →
          (stream_single_camera env (n + 1)).ctl = Ctl.connecting
            ∧ (stream_single_camera env (n + 1)).world.trace =
                (stream_single_camera env n).world.trace
                  ++ [Event.capRead ReadOutcome.throws, Event.close s, Event.capRelease])
      ∧ (∀ s m, (stream_single_camera env n).ctl = Ctl.streaming s →
          env.readRet (stream_single_camera env n).world.reads = ReadOutcome.frame m →
          m.empty = false → m.jpeg = none →
          (stream_single_camera env (n + 1)).ctl = Ctl.connecting
            ∧ (stream_single_camera env (n + 1)).world.trace =
                (stream_single_camera env n).world.trace
                  ++ [Event.capRead (ReadOutcome.frame m), Event.close s, Event.capRelease])
      ∧ (∀ s m, (stream_single_camera env n).ctl = Ctl.streaming s →
          env.readRet (stream_single_camera env n).world.reads = ReadOutcome.frame m →
          m.empty = false →
          (send_frame env (cap_read env (stream_single_camera env n).world).2 s m).1
            = some false →
          (stream_single_camera env (n + 1)).ctl = Ctl.connecting
            ∧ (stream_single_camera env (n + 1)).world.trace =
                (send_frame env (cap_read env (stream_single_camera env n).world).2 s m).2.trace
                  ++ [Event.close s, Event.capRelease])
      ∧ (∀ s, (stream_single_camera env n).ctl = Ctl.streaming s →
          is_empty_read (env.readRet (stream_single_camera env n).world.reads) = true →
          env.isOpened (stream_single_camera env n).world.opens = false →
          (stream_single_camera env (n + 1)).ctl = Ctl.connecting
            ∧ (stream_single_camera env (n + 1)).world.trace =
                (stream_single_camera env n).world.trace
                  ++ [Event.capRead (env.readRet (stream_single_camera env n).world.reads),
                      Event.capRelease, Event.sleep 1, Event.capOpen false,
                      Event.close s, Event.capRelease]) := by
  simp only [stream_single_camera]
  refine ⟨run_init_returned_iff env n, ?_, ?_⟩
  · intro h
    have h2 := (run_init_returned_iff env n).1 h
    obtain ⟨m, rfl⟩ : ∃ m, n = m + 1 := ⟨n - 1, by omega⟩
    exact run_init_dead env m h2.2
  · rw [run_succ_right]
    generalize run env n Worker.init = wk
    obtain ⟨ctl, w⟩ := wk
    refine ⟨?_, ?_, ?_, ?_, ?_⟩
    · intro hc hf
      simp only at hc hf
      subst hc
      have hf2 := (create_socket_fails_iff env w).1 hf
      rw [step_connecting_fail env w hf2]
      simp [create_socket_eq]
    · intro s hc hr
      simp only at hc hr
      subst hc
      rw [step_streaming_read_throws env w s hr]
      exact ⟨rfl, rfl⟩
    · intro s m hc hr hne hj
      simp only at hc hr
      subst hc
      rw [step_streaming_encoder_throws env w s m hr hne hj]
      exact ⟨rfl, rfl⟩
    · intro s m hc hr hne hs
      simp only at hc hr hs
      subst hc
      rw [step_streaming_send_fail env w s m hr hne hs]
      simp [leave_try, cap_release, sys_close]
    · intro s hc hr ho
      simp only at hc hr ho
      subst hc
      rw [step_streaming_reopen_fails env w s hr ho]
      exact ⟨rfl, rfl⟩

/-- Witness of `worker_returns_iff_first_open_fails`, one run for each failure: a refused
connection, a read that throws, an encoder that throws, a failed send and a failed reopen
each leave the worker at the head of the connect loop, with the calls listed. -/
theorem worker_returns_iff_first_open_fails_witness :
    ((stream_single_camera refusedEnv 2).ctl = Ctl.connecting
        ∧ (stream_single_camera refusedEnv 2).world.trace =
            [Event.capOpen true, Event.socket 3, Event.connect 3 (-1), Event.sleep 5])
      ∧ ((stream_single_camera readThrowsEnv 3).ctl = Ctl.connecting
        ∧ (stream_single_camera readThrowsEnv 3).world.trace =
            [Event.capOpen true, Event.socket 3, Event.connect 3 0,
             Event.capRead ReadOutcome.throws, Event.close 3, Event.capRelease])
      ∧ ((stream_single_camera encoderThrowsEnv 3).ctl = Ctl.connecting
        ∧ (stream_single_camera encoderThrowsEnv 3).world.trace =
            [Event.capOpen true, Event.socket 3, Event.connect 3 0,
             Event.capRead (ReadOutcome.frame badFrame), Event.close 3, Event.capRelease])
      ∧ ((stream_single_camera sendFailEnv 3).ctl = Ctl.connecting
        ∧ (stream_single_camera sendFailEnv 3).world.trace =
            [Event.capOpen true, Event.socket 3, Event.connect 3 0,
             Event.capRead (ReadOutcome.frame sampleFrame), Event.send 3 [3, 0, 0, 0] (-1),
             Event.close 3, Event.capRelease])
      ∧ ((stream_single_camera reopenFailEnv 3).ctl = Ctl.connecting
        ∧ (stream_single_camera reopenFailEnv 3).world.trace =
            [Event.capOpen true, Event.socket 3, Event.connect 3 0,
             Event.capRead (ReadOutcome.frame emptyFrame), Event.capRelease, Event.sleep 1,
             Event.capOpen false, Event.close 3, Event.capRelease]) :=
  have h1 := (worker_returns_iff_first_open_fails refusedEnv 1).2.2.1 (by decide) (by decide)
  have h2 := (worker_returns_iff_first_open_fails readThrowsEnv 2).2.2.2.1 3
    (by decide) (by decide)
  have h3 := (worker_returns_iff_first_open_fails encoderThrowsEnv 2).2.2.2.2.1 3 badFrame
    (by decide) (by decide) rfl rfl
  have h4 := (worker_returns_iff_first_open_fails sendFailEnv 2).2.2.2.2.2.1 3 sampleFrame
    (by decide) (by decide) rfl (by decide)
  have h5 := (worker_returns_iff_first_open_fails reopenFailEnv 2).2.2.2.2.2.2 3
    (by decide) (by decide) (by decide)
  ⟨⟨h1.1, h1.2.trans (by decide)⟩, ⟨h2.1, h2.2.trans (by decide)⟩,
    ⟨h3.1, h3.2.trans (by decide)⟩, ⟨h4.1, h4.2.trans (by decide)⟩,
    ⟨h5.1, h5.2.trans (by decide)⟩⟩

/-! ## The connection discipline -/

theorem conn_run_append (c : Conn) (t1 t2 : List Event) :
    conn_run c (t1 ++ t2) = (conn_run c t1).bind (fun c1 => conn_run c1 t2) := by
  induction t1 generalizing c with
  | nil => simp [conn_run]
  | cons e es ih =>
    simp only [List.cons_append, conn_run]
    cases conn_step c e with
    | none => simp
    | some c1 => simpa using ih c1

/-- Leaving the `try` block while holding the socket gives the socket up. -/
theorem conn_run_leave_try (c0 : Conn) (s : Int) (w : World) (dead : Bool)
    (h : conn_run c0 w.trace = some ⟨some s, dead⟩) :
    conn_run c0 (leave_try s w).world.trace = some ⟨none, false⟩ := by
  simp [leave_try, cap_release, sys_close, conn_run_append, h, conn_run, conn_step]

/-- One pass keeps the trace within the connection discipline, with the held socket
being the one of the control point. -/
theorem step_conn (env : Env) (c0 : Conn) (wk : Worker)
    (h : conn_run c0 wk.world.trace = some ⟨held_of wk.ctl, false⟩) :
    conn_run c0 (step env wk).world.trace = some ⟨held_of (step env wk).ctl, false⟩ := by
  obtain ⟨ctl, w⟩ := wk
  cases ctl with
  | entry =>
    simp only [held_of] at h
    cases ho : env.isOpened w.opens <;>
      simp [step, cap_open, ho, conn_run_append, h, conn_run, conn_step, held_of]
  | connecting =>
    simp only [held_of] at h
    cases hf : connect_fails env w.conns with
    | true =>
      rw [step_connecting_fail env w hf]
      unfold create_socket_events
      unfold connect_fails at hf
      by_cases h1 : env.socketRet w.conns < 0
      · simp [h1, conn_run_append, h, conn_run, conn_step, held_of]
      · have h2 : env.connectRet w.conns < 0 := by simpa [h1] using hf
        simp [h1, h2, conn_run_append, h, conn_run, conn_step, held_of]
    | false =>
      rw [step_connecting_ok env w hf]
      unfold create_socket_events
      unfold connect_fails at hf
      simp only [Bool.or_eq_false_iff, decide_eq_false_iff_not] at hf
      simp [hf.1, hf.2, conn_run_append, h, conn_run, conn_step, held_of]
  | streaming s =>
    simp only [held_of] at h
    have hrd : conn_run c0 (cap_read env w).2.trace = some ⟨some s, false⟩ := by
      simp [cap_read, conn_run_append, h, conn_run, conn_step]
    simp only [step]
    cases hr : (cap_read env w).1 with
    | throws =>
      simp only []
      rw [conn_run_leave_try c0 s _ false hrd]
      rfl
    | frame m =>
      simp only []
      cases he : m.empty with
      | true =>
        simp only [if_true]
        have ho : conn_run c0 (cap_open env (sleep_for 1 (cap_release (cap_read env w).2))).2.trace
            = some ⟨some s, false⟩ := by
          simp only [cap_open, sleep_for, cap_release, conn_run_append, hrd]
          simp [conn_run, conn_step]
        cases hopen : (cap_open env (sleep_for 1 (cap_release (cap_read env w).2))).1 with
        | true => simpa [held_of] using ho
        | false =>
          simp only [Bool.not_false, if_true]
          rw [conn_run_leave_try c0 s _ false ho]
          rfl
      | false =>
        simp only [Bool.false_eq_true, if_false]
        cases hj : m.jpeg with
        | none =>
          have hs : send_frame env (cap_read env w).2 s m = (none, (cap_read env w).2) := by
            simp [send_frame, hj]
          rw [hs]
          simp only []
          rw [conn_run_leave_try c0 s _ false hrd]
          rfl
        | some buffer =>
          rw [send_frame_eq env (cap_read env w).2 s m buffer hj]
          by_cases h1 : env.sendRet (cap_read env w).2.sends = -1
          · simp only [h1, if_true]
            rw [conn_run_leave_try c0 s _ true (by
              simp [conn_run_append, hrd, conn_run, conn_step, h1])]
            rfl
          · simp only [h1, if_false]
            by_cases h2 : env.sendRet ((cap_read env w).2.sends + 1) = -1
            · simp only [h2, decide_True, Bool.not_true]
              rw [conn_run_leave_try c0 s _ true (by
                simp [conn_run_append, hrd, conn_run, conn_step, h1, h2])]
              rfl
            · simp only [h2, decide_False, Bool.not_false]
              simp [conn_run_append, hrd, conn_run, conn_step, h1, h2, held_of]
  | returned => simpa [step] using h

/-- Every run of the worker keeps the connection discipline. -/
theorem run_conn (env : Env) (n : Nat) : ∀ wk : Worker,
    conn_run ⟨none, false⟩ wk.world.trace = some ⟨held_of wk.ctl, false⟩ →
    conn_run ⟨none, false⟩ (run env n wk).world.trace =
      some ⟨held_of (run env n wk).ctl, false⟩ := by
  induction n with
  | zero => intro wk h; exact h
  | succ n ih => intro wk h; rw [run]; exact ih _ (step_conn env _ wk h)

/-- C9. With the `finally` block run on every exit from the `try` block, the trace of
every run of `stream_single_camera`, cut at any pass, obeys the connection discipline
`conn_step`: no `socket()` or `connect()` is made while a connected socket is held (each
connected socket is closed before the next `create_socket`), a `close` is only ever made
on the held socket (so each is closed once), every `send` goes to the held socket, and
none follows a failed `send` on it. What is held at the cut is the socket of the streaming
loop, or nothing when the worker is not streaming. -/
theorem connection_discipline (env : Env) (n : Nat) :
    conn_run ⟨none, false⟩ (stream_single_camera env n).world.trace =
      some ⟨held_of (stream_single_camera env n).ctl, false⟩ :=
  run_conn env n Worker.init rfl

/-! ## Descriptors left open by `create_socket` -/

theorem open_fds_append (t u : List Event) :
    open_fds (t ++ u) = u.foldl fd_step (open_fds t) := by
  simp [open_fds, List.foldl_append]

/-- Refused connections pile up: after `K` calls of `create_socket` in which `socket()`
succeeds and `connect()` fails, the `K` descriptors are all still open. -/
theorem refused_connections_leak (env : Env) (K : Nat) (hopen : env.isOpened 0 = true)
    (hsock : ∀ i, i < K → 0 ≤ env.socketRet i)
    (hconn : ∀ i, i < K → env.connectRet i < 0) :
    (stream_single_camera env (K + 1)).ctl = Ctl.connecting
      ∧ (stream_single_camera env (K + 1)).world.conns = K
      ∧ open_fds (stream_single_camera env (K + 1)).world.trace =
          (List.range K).map env.socketRet := by
  simp only [stream_single_camera]
  induction K with
  | zero =>
    have hstep : step env Worker.init =
        ⟨Ctl.connecting, ⟨1, 0, 0, 0, [Event.capOpen true]⟩⟩ := by
      simp [step, Worker.init, World.init, cap_open, hopen]
    simp [run, hstep, open_fds, fd_step]
  | succ K ih =>
    obtain ⟨h1, h2, h3⟩ := ih (fun i hi => hsock i (by omega)) (fun i hi => hconn i (by omega))
    have hs : ¬ env.socketRet K < 0 := not_lt.mpr (hsock K (Nat.lt_succ_self K))
    have hc : env.connectRet K < 0 := hconn K (Nat.lt_succ_self K)
    have hf : connect_fails env K = true := by simp [connect_fails, hc]
    rw [run_succ_right]
    generalize run env (K + 1) Worker.init = wk at h1 h2 h3
    obtain ⟨ctl, w⟩ := wk
    simp only at h1 h2 h3
    subst h1
    subst h2
    rw [step_connecting_fail env w hf]
    refine ⟨rfl, rfl, ?_⟩
    simp only [open_fds_append, h3, create_socket_events, hs, if_false]
    simp [fd_step, hs, List.range_succ]

/-- C10, the code at the failing input. `socket()` returns 3 and `connect()` fails:
`create_socket` returns `-1` and descriptor 3 is still open. In the worker, three refused
connections leave three descriptors open. -/
theorem create_socket_leaks_descriptor :
    (create_socket refusedEnv World.init).1 = -1
      ∧ (create_socket refusedEnv World.init).2.trace = [Event.socket 3, Event.connect 3 (-1)]
      ∧ open_fds (create_socket refusedEnv World.init).2.trace = [3]
      ∧ (stream_single_camera refusedEnv 4).ctl = Ctl.connecting
      ∧ open_fds (stream_single_camera refusedEnv 4).world.trace = [3, 4, 5] := by
  decide

/-- The discipline is not vacuous: a second connection while one is held, a send after a
failed send, a second close, and a send on a socket that is not held are all rejected. -/
theorem conn_run_rejects :
    conn_run ⟨none, false⟩ [Event.socket 3, Event.connect 3 0, Event.socket 4] = none
      ∧ conn_run ⟨none, false⟩
          [Event.socket 3, Event.connect 3 0, Event.send 3 [1] (-1), Event.send 3 [1] 1] = none
      ∧ conn_run ⟨none, false⟩
          [Event.socket 3, Event.connect 3 0, Event.close 3, Event.close 3] = none
      ∧ conn_run ⟨none, false⟩
          [Event.socket 3, Event.connect 3 0, Event.close 3, Event.send 3 [1] 1] = none := by
  decide

/-! ## `stream_multiple_cameras` -/

theorem spawn_loop_eq (vps_ip : String) (vps_port : Nat) (cam_user cam_password : String)
    (ip_list : List String) : ∀ threads : List WorkerCall,
    spawn_loop vps_ip vps_port cam_user cam_password ip_list threads =
      threads ++ ip_list.map
        (fun ip_address => ⟨ip_address, vps_ip, vps_port, cam_user, cam_password⟩) := by
  induction ip_list with
  | nil => intro threads; simp [spawn_loop]
  | cons ip rest ih => intro threads; simp [spawn_loop, ih]

theorem join_loop_returns_iff (ends : Nat → Bool) (n : Nat) : ∀ k : Nat,
    (join_loop ends k n).1 = true ↔ ∀ i, i < n → ends (k + i) = true := by
  induction n with
  | zero => intro k; simp [join_loop]
  | succ n ih =>
    intro k
    cases hk : ends k with
    | false =>
      simp only [join_loop, hk]
      constructor
      · intro h; simp at h
      · intro h
        have := h 0 (Nat.succ_pos n)
        simp [hk] at this
    | true =>
      simp only [join_loop, hk, if_true]
      rw [ih (k + 1)]
      constructor
      · intro h i hi
        cases i with
        | zero => simpa using hk
        | succ i =>
          have := h i (by omega)
          simpa [Nat.add_assoc, Nat.add_comm 1 i] using this
      · intro h i hi
        have := h (i + 1) (by omega)
        simpa [Nat.add_assoc, Nat.add_comm 1 i] using this

theorem join_loop_count (ends : Nat → Bool) (n : Nat) : ∀ k : Nat,
    (join_loop ends k n).1 = true → (join_loop ends k n).2 = n := by
  induction n with
  | zero => intro k _; rfl
  | succ n ih =>
    intro k h
    cases hk : ends k with
    | false => simp [join_loop, hk] at h
    | true =>
      simp only [join_loop, hk, if_true] at h ⊢
      rw [ih (k + 1) h]

/-- C5. For every address list, `stream_multiple_cameras` starts exactly one thread per
address, the i-th on the i-th address with the server and camera arguments it was given
(so `N` threads for `N` addresses, none skipped or repeated); it returns exactly when
every one of these workers ends, and then every `join` has come back; on the empty list
it starts nothing and returns. -/
theorem supervisor_starts_and_joins (envs : Nat → Env) (ip_list : List String)
    (vps_ip : String) (vps_port : Nat) (cam_user cam_password : String) :
    (stream_multiple_cameras envs ip_list vps_ip vps_port cam_user cam_password).threads =
        ip_list.map (fun ip_address => ⟨ip_address, vps_ip, vps_port, cam_user, cam_password⟩)
      ∧ (stream_multiple_cameras envs ip_list vps_ip vps_port cam_user
          cam_password).threads.length = ip_list.length
      ∧ ((stream_multiple_cameras envs ip_list vps_ip vps_port cam_user
          cam_password).returned = true ↔
          ∀ k, k < ip_list.length → ∃ n, (stream_single_camera (envs k) n).ctl = Ctl.returned)
      ∧ ((stream_multiple_cameras envs ip_list vps_ip vps_port cam_user
          cam_password).returned = true →
          (stream_multiple_cameras envs ip_list vps_ip vps_port cam_user
            cam_password).joined = ip_list.length)
      ∧ (stream_multiple_cameras envs [] vps_ip vps_port cam_user cam_password)
          = ⟨[], 0, true⟩ := by
  have hthreads := spawn_loop_eq vps_ip vps_port cam_user cam_password ip_list []
  simp only [List.nil_append] at hthreads
  refine ⟨hthreads, ?_, ?_, ?_, rfl⟩
  · simp [stream_multiple_cameras, hthreads]
  · simp only [stream_multiple_cameras, hthreads, List.length_map]
    rw [join_loop_returns_iff]
    simp [worker_ends_iff]
  · intro h
    simp only [stream_multiple_cameras, hthreads, List.length_map] at h ⊢
    exact join_loop_count _ _ _ h

/-! ## `main` -/

/-- C6, counterexample. Discovery yields two addresses; `main` calls
`stream_single_camera` once, on the first one, and never on the second. -/
theorem main_two_cameras_counterexample :
    (main ["192.168.1.64\n", "192.168.1.65\n"]).workers.length = 1
      ∧ (main ["192.168.1.64\n", "192.168.1.65\n"]).workers.map WorkerCall.ip_address
          = ["192.168.1.64\n"]
      ∧ (main ["192.168.1.64\n", "192.168.1.65\n"]).workers.length
          ≠ ["192.168.1.64\n", "192.168.1.65\n"].length := by
  refine ⟨rfl, rfl, ?_⟩
  simp [main]

/-- C6, amended. `main` runs one worker, on the first discovered address and with the
built-in server and camera settings, when the list is not empty, whatever its length;
on the empty list it runs none and prints that no camera was found. -/
theorem main_streams_first_camera (list_ip_address : List String) :
    (main list_ip_address).workers =
        (list_ip_address.take 1).map
          (fun ip_address => ⟨ip_address, "160.22.122.122", 8000, "admin", "CamProject12"⟩)
      ∧ (main list_ip_address).workers.length = min list_ip_address.length 1
      ∧ (main list_ip_address).printed =
          (if list_ip_address.isEmpty then ["No cameras found!"] else []) := by
  cases list_ip_address with
  | nil => exact ⟨rfl, rfl, rfl⟩
  | cons ip rest => refine ⟨rfl, ?_, rfl⟩; simp [main]

end HostCamera
